import Mathlib

/-
  Verification development for the DSscan repository (a Flask app that
  classifies face images as "Normal" or "Down Syndrome").

  Python strings are embedded as List Char; probabilities as rationals.
  Each definition is translated from the named source function.
-/

/-! ## Prediction interpretation (app/services/inference.py, InferenceService.predict) -/

/-- Result dictionary returned by InferenceService.predict
(fields class, confidence, raw_probability, probabilities). -/
structure PredictionResult where
  result_class : List Char
  confidence : ℚ
  raw_probability : ℚ
  prob_normal : ℚ
  prob_down_syndrome : ℚ
deriving DecidableEq

/-- Interpretation step of InferenceService.predict (inference.py lines 194-212):
if prob_value > 0.5 the class is "Normal" with confidence prob_value,
otherwise "Down Syndrome" with confidence 1 - prob_value; both class
probabilities are always returned. -/
def interpretPrediction (p : ℚ) : PredictionResult :=
  if p > 1/2 then
    ⟨"Normal".toList, p, p, p, 1 - p⟩
  else
    ⟨"Down Syndrome".toList, 1 - p, p, p, 1 - p⟩

/-- Claim C1: for every raw probability p in [0,1] the interpreter follows the
threshold rule (p > 0.5 gives "Normal" with confidence p, p <= 0.5 gives
"Down Syndrome" with confidence 1-p), and the returned confidence equals
max(p, 1-p), so it lies in [0.5, 1]. -/
theorem interpret_threshold_rule (p : ℚ) (h0 : 0 ≤ p) (h1 : p ≤ 1) :
    (p > 1/2 →
      (interpretPrediction p).result_class = "Normal".toList ∧
      (interpretPrediction p).confidence = p) ∧
    (p ≤ 1/2 →
      (interpretPrediction p).result_class = "Down Syndrome".toList ∧
      (interpretPrediction p).confidence = 1 - p) ∧
    (interpretPrediction p).confidence = max p (1 - p) ∧
    1/2 ≤ (interpretPrediction p).confidence ∧
    (interpretPrediction p).confidence ≤ 1 := by
  unfold interpretPrediction
  by_cases hp : p > 1/2
  · rw [if_pos hp]
    refine ⟨fun _ => ⟨rfl, rfl⟩, fun hle => absurd hp (not_lt.mpr hle), ?_, ?_, ?_⟩
    · simp only
      rw [max_eq_left (by linarith)]
    · simp only
      linarith
    · simp only
      exact h1
  · rw [if_neg hp]
    push_neg at hp
    refine ⟨fun hgt => absurd hgt (not_lt.mpr hp), fun _ => ⟨rfl, rfl⟩, ?_, ?_, ?_⟩
    · simp only
      rw [max_eq_right (by linarith)]
    · simp only
      linarith
    · simp only
      linarith

/-- Witness for C1 at the concrete raw probability 3/4. -/
theorem interpret_threshold_rule_witness :
    ((3 : ℚ)/4 > 1/2 →
      (interpretPrediction (3/4)).result_class = "Normal".toList ∧
      (interpretPrediction (3/4)).confidence = 3/4) ∧
    ((3 : ℚ)/4 ≤ 1/2 →
      (interpretPrediction (3/4)).result_class = "Down Syndrome".toList ∧
      (interpretPrediction (3/4)).confidence = 1 - 3/4) ∧
    (interpretPrediction (3/4)).confidence = max (3/4 : ℚ) (1 - 3/4) ∧
    1/2 ≤ (interpretPrediction (3/4)).confidence ∧
    (interpretPrediction (3/4)).confidence ≤ 1 :=
  interpret_threshold_rule (3/4) (by norm_num) (by norm_num)

/-- Claim C2 counterexample: at raw probability exactly 0.5 the code takes the
else branch, so the label is "Down Syndrome" (not "Normal"), with
confidence 0.5. -/
theorem interpret_half_counterexample :
    (interpretPrediction (1/2)).result_class = "Down Syndrome".toList ∧
    (interpretPrediction (1/2)).result_class ≠ "Normal".toList ∧
    (interpretPrediction (1/2)).confidence = 1/2 := by
  rw [interpretPrediction, if_neg (by norm_num)]
  refine ⟨rfl, by decide, by norm_num⟩

/-- Claim C2 (amended): at raw probability exactly 0.5, the strict test
prob_value > 0.5 fails, so interpretation takes the "Down Syndrome" branch,
returning label "Down Syndrome" with confidence 0.5. -/
theorem interpret_half_amended :
    (interpretPrediction (1/2)).result_class = "Down Syndrome".toList ∧
    (interpretPrediction (1/2)).confidence = 1/2 ∧
    (interpretPrediction (1/2)).raw_probability = 1/2 := by
  rw [interpretPrediction, if_neg (by norm_num)]
  refine ⟨rfl, by norm_num, rfl⟩

/-- Claim C9: the returned confidence plus the returned probability of the
losing class equals 1, and the two returned class probabilities sum to 1
(exactly, in rational arithmetic). -/
theorem interpret_probabilities_complementary (p : ℚ) (h0 : 0 ≤ p) (h1 : p ≤ 1) :
    ((interpretPrediction p).result_class = "Normal".toList →
      (interpretPrediction p).confidence + (interpretPrediction p).prob_down_syndrome = 1) ∧
    ((interpretPrediction p).result_class = "Down Syndrome".toList →
      (interpretPrediction p).confidence + (interpretPrediction p).prob_normal = 1) ∧
    (interpretPrediction p).prob_normal + (interpretPrediction p).prob_down_syndrome = 1 := by
  unfold interpretPrediction
  by_cases hp : p > 1/2
  · rw [if_pos hp]
    exact ⟨fun _ => by ring,
      fun h => absurd (show "Normal".toList = "Down Syndrome".toList from h) (by decide),
      by ring⟩
  · rw [if_neg hp]
    exact ⟨fun h => absurd (show "Down Syndrome".toList = "Normal".toList from h) (by decide),
      fun _ => by ring, by ring⟩

/-- Witness for C9 at the concrete raw probability 1/4. -/
theorem interpret_probabilities_complementary_witness :
    ((interpretPrediction (1/4)).result_class = "Normal".toList →
      (interpretPrediction (1/4)).confidence + (interpretPrediction (1/4)).prob_down_syndrome = 1) ∧
    ((interpretPrediction (1/4)).result_class = "Down Syndrome".toList →
      (interpretPrediction (1/4)).confidence + (interpretPrediction (1/4)).prob_normal = 1) ∧
    (interpretPrediction (1/4)).prob_normal + (interpretPrediction (1/4)).prob_down_syndrome = 1 :=
  interpret_probabilities_complementary (1/4) (by norm_num) (by norm_num)

/-! ## Filename handling (app/services/image_processor.py) -/

/-- One pass of the Python statement sanitized.replace(c, "") for a
single-character pattern: deletes every occurrence of the character d. -/
def removeChar (d : Char) : List Char → List Char
  | [] => []
  | c :: rest => if c = d then removeChar d rest else c :: removeChar d rest

/-- One pass of the Python statement sanitized.replace("..", ""):
deletes non-overlapping ".." occurrences, scanning left to right. -/
def removeDotDot : List Char → List Char
  | [] => []
  | [c] => [c]
  | c₁ :: c₂ :: rest =>
    if c₁ = '.' ∧ c₂ = '.' then removeDotDot rest
    else c₁ :: removeDotDot (c₂ :: rest)

/-- Whether a ".." substring occurs (used to state the traversal claim). -/
def containsDotDot : List Char → Bool
  | [] => false
  | [_] => false
  | c₁ :: c₂ :: rest => (c₁ == '.' && c₂ == '.') || containsDotDot (c₂ :: rest)

/-- The whitespace set removed by the Python str.strip method. -/
def isPySpace (c : Char) : Bool :=
  c == ' ' || c == '\t' || c == '\n' || c == '\r' || c == '\x0B' || c == '\x0C'

/-- Python str.strip: drop leading and trailing whitespace. -/
def pyStrip (s : List Char) : List Char :=
  ((s.dropWhile isPySpace).reverse.dropWhile isPySpace).reverse

/-- ImageProcessor.sanitize_filename (image_processor.py lines 40-48):
replaces each entry of dangerous_chars with the empty string, in the order
of the source list, then strips whitespace. -/
def sanitize_filename (f : List Char) : List Char :=
  pyStrip (removeChar '\x00' (removeChar '*' (removeChar '?' (removeChar '|'
    (removeChar '\"' (removeChar ':' (removeChar '>' (removeChar '<'
      (removeDotDot (removeChar '\\' (removeChar '/' f)))))))))))

theorem removeChar_sublist (d : Char) (s : List Char) : List.Sublist (removeChar d s) s := by
  induction s with
  | nil => simp [removeChar]
  | cons c rest ih =>
    simp only [removeChar]
    by_cases hc : c = d
    · rw [if_pos hc]
      exact ih.trans (List.sublist_cons_self c rest)
    · rw [if_neg hc]
      exact List.Sublist.cons₂ c ih

theorem removeDotDot_sublist_aux :
    ∀ (n : Nat) (s : List Char), s.length ≤ n → List.Sublist (removeDotDot s) s := by
  intro n
  induction n with
  | zero =>
    intro s hs
    have h0 : s = [] := List.eq_nil_of_length_eq_zero (Nat.le_zero.mp hs)
    subst h0
    simp [removeDotDot]
  | succ n ih =>
    intro s hs
    rcases s with _ | ⟨c₁, _ | ⟨c₂, rest⟩⟩
    · simp [removeDotDot]
    · simp [removeDotDot]
    · simp only [removeDotDot]
      by_cases h : c₁ = '.' ∧ c₂ = '.'
      · rw [if_pos h]
        have h1 : List.Sublist (removeDotDot rest) rest :=
          ih rest (by simp only [List.length_cons] at hs; omega)
        exact h1.trans ((List.sublist_cons_self c₂ rest).trans
          (List.sublist_cons_self c₁ (c₂ :: rest)))
      · rw [if_neg h]
        have h1 : List.Sublist (removeDotDot (c₂ :: rest)) (c₂ :: rest) :=
          ih (c₂ :: rest) (by simp only [List.length_cons] at hs ⊢; omega)
        exact List.Sublist.cons₂ c₁ h1

theorem removeDotDot_sublist (s : List Char) : List.Sublist (removeDotDot s) s :=
  removeDotDot_sublist_aux s.length s le_rfl

theorem pyStrip_sublist (s : List Char) : List.Sublist (pyStrip s) s := by
  unfold pyStrip
  have h1 : List.Sublist ((List.dropWhile isPySpace s).reverse.dropWhile isPySpace)
      (List.dropWhile isPySpace s).reverse := List.dropWhile_sublist isPySpace
  have h2 := h1.reverse
  rw [List.reverse_reverse] at h2
  exact h2.trans (List.dropWhile_sublist isPySpace)

theorem notMem_removeChar_of (d : Char) {a : Char} {s : List Char} (h : a ∉ s) :
    a ∉ removeChar d s :=
  fun hm => h ((removeChar_sublist d s).mem hm)

theorem notMem_removeDotDot_of {a : Char} {s : List Char} (h : a ∉ s) :
    a ∉ removeDotDot s :=
  fun hm => h ((removeDotDot_sublist s).mem hm)

theorem notMem_pyStrip_of {a : Char} {s : List Char} (h : a ∉ s) : a ∉ pyStrip s :=
  fun hm => h ((pyStrip_sublist s).mem hm)

theorem notMem_removeChar_self (d : Char) (s : List Char) : d ∉ removeChar d s := by
  induction s with
  | nil => simp [removeChar]
  | cons c rest ih =>
    simp only [removeChar]
    by_cases hc : c = d
    · rw [if_pos hc]; exact ih
    · rw [if_neg hc]
      intro hm
      rcases List.mem_cons.mp hm with h | h
      · exact hc h.symm
      · exact ih h

/-- Claim C3 counterexample: sanitizing the filename ".<." yields exactly
"..": removing the single character < re-forms a ".." that the earlier
".." pass cannot see, so a ".." substring remains in the output. -/
theorem sanitize_dotdot_counterexample :
    sanitize_filename ".<.".toList = "..".toList ∧
    containsDotDot (sanitize_filename ".<.".toList) = true :=
  ⟨rfl, rfl⟩

/-- Claim C3 (amended): the sanitizer output never contains any of the single
dangerous characters / \ < > : " | ? * NUL; the ".." guarantee does not hold
for every input because removing a dangerous character can re-form "..". -/
theorem sanitize_filename_no_single_dangerous (f : List Char) :
    '/' ∉ sanitize_filename f ∧ '\\' ∉ sanitize_filename f ∧ '<' ∉ sanitize_filename f ∧
    '>' ∉ sanitize_filename f ∧ ':' ∉ sanitize_filename f ∧ '\"' ∉ sanitize_filename f ∧
    '|' ∉ sanitize_filename f ∧ '?' ∉ sanitize_filename f ∧ '*' ∉ sanitize_filename f ∧
    '\x00' ∉ sanitize_filename f := by
  unfold sanitize_filename
  refine ⟨?_, ?_, ?_, ?_, ?_, ?_, ?_, ?_, ?_, ?_⟩
  · exact notMem_pyStrip_of (notMem_removeChar_of _ (notMem_removeChar_of _
      (notMem_removeChar_of _ (notMem_removeChar_of _ (notMem_removeChar_of _
      (notMem_removeChar_of _ (notMem_removeChar_of _ (notMem_removeChar_of _
      (notMem_removeDotDot_of (notMem_removeChar_of _ (notMem_removeChar_self '/' f)))))))))))
  · exact notMem_pyStrip_of (notMem_removeChar_of _ (notMem_removeChar_of _
      (notMem_removeChar_of _ (notMem_removeChar_of _ (notMem_removeChar_of _
      (notMem_removeChar_of _ (notMem_removeChar_of _ (notMem_removeChar_of _
      (notMem_removeDotDot_of (notMem_removeChar_self '\\' _))))))))))
  · exact notMem_pyStrip_of (notMem_removeChar_of _ (notMem_removeChar_of _
      (notMem_removeChar_of _ (notMem_removeChar_of _ (notMem_removeChar_of _
      (notMem_removeChar_of _ (notMem_removeChar_of _ (notMem_removeChar_self '<' _))))))))
  · exact notMem_pyStrip_of (notMem_removeChar_of _ (notMem_removeChar_of _
      (notMem_removeChar_of _ (notMem_removeChar_of _ (notMem_removeChar_of _
      (notMem_removeChar_of _ (notMem_removeChar_self '>' _)))))))
  · exact notMem_pyStrip_of (notMem_removeChar_of _ (notMem_removeChar_of _
      (notMem_removeChar_of _ (notMem_removeChar_of _ (notMem_removeChar_of _
      (notMem_removeChar_self ':' _))))))
  · exact notMem_pyStrip_of (notMem_removeChar_of _ (notMem_removeChar_of _
      (notMem_removeChar_of _ (notMem_removeChar_of _ (notMem_removeChar_self '\"' _)))))
  · exact notMem_pyStrip_of (notMem_removeChar_of _ (notMem_removeChar_of _
      (notMem_removeChar_of _ (notMem_removeChar_self '|' _))))
  · exact notMem_pyStrip_of (notMem_removeChar_of _ (notMem_removeChar_of _
      (notMem_removeChar_self '?' _)))
  · exact notMem_pyStrip_of (notMem_removeChar_of _ (notMem_removeChar_self '*' _))
  · exact notMem_pyStrip_of (notMem_removeChar_self '\x00' _)

/-- Allowed upload extensions (image_processor.py line 22). -/
def ALLOWED_EXTENSIONS : List (List Char) :=
  ["jpg".toList, "jpeg".toList, "png".toList, "gif".toList, "bmp".toList,
   "webp".toList, "tiff".toList, "tif".toList, "heic".toList, "heif".toList]

/-- Python str.lower, character by character (ASCII). -/
def pyLower (s : List Char) : List Char := s.map Char.toLower

/-- The part of the filename after the last dot:
Python filename.rsplit with separator "." and maxsplit 1, component 1. -/
def afterLastDot (f : List Char) : List Char :=
  (f.reverse.takeWhile (fun c => c != '.')).reverse

/-- ImageProcessor.is_allowed_file (image_processor.py lines 25-31): reject
names without a dot, otherwise test the lowercased last suffix against
ALLOWED_EXTENSIONS. -/
def is_allowed_file (f : List Char) : Bool :=
  if f.contains '.' then ALLOWED_EXTENSIONS.contains (pyLower (afterLastDot f)) else false

/-- ImageProcessor.get_extension (image_processor.py lines 33-38): the
lowercased last suffix, or empty when the name has no dot. -/
def get_extension (f : List Char) : List Char :=
  if f.contains '.' then pyLower (afterLastDot f) else []

/-- Claim C10: the extension check requires a dot and is case-insensitive:
a name with no dot is always rejected; a name with a dot is accepted exactly
when its lowercased last suffix is in the allow-set; in particular
"face.JPG" passes and "faceJPG" is rejected. -/
theorem is_allowed_file_rule :
    (∀ f : List Char, f.contains '.' = false → is_allowed_file f = false) ∧
    (∀ f : List Char, f.contains '.' = true →
      (is_allowed_file f = true ↔ pyLower (afterLastDot f) ∈ ALLOWED_EXTENSIONS)) ∧
    is_allowed_file "face.JPG".toList = true ∧
    is_allowed_file "faceJPG".toList = false := by
  refine ⟨?_, ?_, by rfl, by rfl⟩
  · intro f hf
    rw [is_allowed_file, if_neg (show ¬(f.contains '.' = true) by rw [hf]; exact Bool.false_ne_true)]
  · intro f hf
    rw [is_allowed_file, if_pos hf]
    exact List.elem_iff

/-- Witness for C10 at the concrete filenames "noext" and "pic.PNG". -/
theorem is_allowed_file_rule_witness :
    is_allowed_file "noext".toList = false ∧
    (is_allowed_file "pic.PNG".toList = true ↔
      pyLower (afterLastDot "pic.PNG".toList) ∈ ALLOWED_EXTENSIONS) :=
  ⟨is_allowed_file_rule.1 ("noext".toList) (by rfl),
   is_allowed_file_rule.2.1 ("pic.PNG".toList) (by rfl)⟩

/-! ## Stored-artifact filename (app/views/dashboard.py, predict, lines 94-113) -/

/-- Python expression "ext or jpg": the empty extension falls back to "jpg"
(dashboard.py line 98). -/
def extOrJpg (e : List Char) : List Char :=
  if e = [] then "jpg".toList else e

/-- Extension actually stored (dashboard.py lines 98-102): take the original
extension (or "jpg" when empty), then normalize heic/heif to "jpg". -/
def storedExt (original : List Char) : List Char :=
  if pyLower (extOrJpg (get_extension original)) = "heic".toList ∨
     pyLower (extOrJpg (get_extension original)) = "heif".toList
  then "jpg".toList
  else extOrJpg (get_extension original)

/-- Stored filename (dashboard.py lines 94-104): class name with spaces
removed, timestamp, username, and the stored extension. -/
def new_filename (result_class ts username original : List Char) : List Char :=
  removeChar ' ' result_class ++ ['_'] ++ ts ++ ['_'] ++ username ++ ['.'] ++ storedExt original

/-- Claim C4 counterexample: a PNG upload keeps extension "png"; the stored
filename does not end in ".jpg" as scenario A of the spec states. -/
theorem stored_extension_png_counterexample :
    storedExt (sanitize_filename "face.png".toList) = "png".toList ∧
    "png".toList ≠ "jpg".toList :=
  ⟨rfl, by decide⟩

/-- Claim C4 (amended): for a PNG uploaded by alice the stored filename is
Label_timestamp_alice.png (extension "png", not "jpg"); only heic and heif
are normalized to "jpg"; every other nonempty extension is kept as is. -/
theorem stored_extension_rule (f ts : List Char)
    (hne : get_extension f ≠ [])
    (hc : pyLower (get_extension f) ≠ "heic".toList)
    (hc2 : pyLower (get_extension f) ≠ "heif".toList) :
    storedExt f = get_extension f ∧
    storedExt "pic.heic".toList = "jpg".toList ∧
    storedExt "pic.heif".toList = "jpg".toList ∧
    new_filename "Normal".toList ts "alice".toList (sanitize_filename "face.png".toList) =
      "Normal".toList ++ ['_'] ++ ts ++ ['_'] ++ "alice".toList ++ ['.'] ++ "png".toList := by
  refine ⟨?_, rfl, rfl, ?_⟩
  · have h1 : extOrJpg (get_extension f) = get_extension f := if_neg hne
    rw [storedExt, h1, if_neg]
    intro h
    rcases h with h | h
    · exact hc h
    · exact hc2 h
  · have h2 : storedExt (sanitize_filename "face.png".toList) = "png".toList := rfl
    have h3 : removeChar ' ' "Normal".toList = "Normal".toList := rfl
    rw [new_filename, h2, h3]

/-- Witness for C4 at the concrete original filename "face.bmp" and a fixed
timestamp. -/
theorem stored_extension_rule_witness :
    storedExt "face.bmp".toList = get_extension "face.bmp".toList ∧
    storedExt "pic.heic".toList = "jpg".toList ∧
    storedExt "pic.heif".toList = "jpg".toList ∧
    new_filename "Normal".toList "20240101_000000".toList "alice".toList
        (sanitize_filename "face.png".toList) =
      "Normal".toList ++ ['_'] ++ "20240101_000000".toList ++ ['_'] ++ "alice".toList ++
        ['.'] ++ "png".toList :=
  stored_extension_rule "face.bmp".toList "20240101_000000".toList
    (by decide) (by decide) (by decide)

/-! ## Color-space normalization (app/services/image_processor.py, load_image,
lines 56-72). The PIL mode is embedded as its string name; the conversion
applied to the pixel data is recorded symbolically. -/

/-- What load_image does to the pixel data of an opened image. -/
inductive ColorConversion where
  | unchanged
  | compositedOnWhite
  | directConvert
deriving DecidableEq

/-- PIL modes that carry an alpha (transparency) channel, by their mode
strings: RGBA, LA (greyscale with alpha) and PA (palette with alpha). -/
def modeHasAlpha (mode : List Char) : Bool :=
  mode = "RGBA".toList || mode = "LA".toList || mode = "PA".toList

/-- Mode dispatch of ImageProcessor.load_image (image_processor.py lines
62-70): an RGB image is untouched; an RGBA image is pasted onto a white
background (giving RGB); any other mode is converted directly to RGB.
Returns the output mode and the conversion applied. -/
def load_image_convert (mode : List Char) : List Char × ColorConversion :=
  if mode = "RGB".toList then (mode, ColorConversion.unchanged)
  else if mode = "RGBA".toList then ("RGB".toList, ColorConversion.compositedOnWhite)
  else ("RGB".toList, ColorConversion.directConvert)

/-- Claim C8 counterexample: a PIL image in mode LA carries an alpha channel
but is converted directly, without compositing onto a white background. -/
theorem load_image_alpha_counterexample :
    modeHasAlpha "LA".toList = true ∧
    (load_image_convert "LA".toList).2 = ColorConversion.directConvert ∧
    (load_image_convert "LA".toList).2 ≠ ColorConversion.compositedOnWhite := by
  refine ⟨rfl, rfl, by decide⟩

/-- Claim C8 (amended): the loader always outputs an RGB image; only mode
RGBA is composited onto a white background first; every other non-RGB mode
(including the alpha-carrying LA and PA) is converted directly. -/
theorem load_image_convert_rule (mode : List Char) :
    (load_image_convert mode).1 = "RGB".toList ∧
    (mode = "RGBA".toList →
      (load_image_convert mode).2 = ColorConversion.compositedOnWhite) ∧
    (mode ≠ "RGB".toList → mode ≠ "RGBA".toList →
      (load_image_convert mode).2 = ColorConversion.directConvert) ∧
    (mode = "RGB".toList → (load_image_convert mode).2 = ColorConversion.unchanged) := by
  unfold load_image_convert
  by_cases h1 : mode = "RGB".toList
  · rw [if_pos h1]
    exact ⟨h1, fun h2 => absurd (h1.symm.trans h2) (by decide),
      fun h3 _ => absurd h1 h3, fun _ => rfl⟩
  · rw [if_neg h1]
    by_cases h2 : mode = "RGBA".toList
    · rw [if_pos h2]
      exact ⟨rfl, fun _ => rfl, fun _ h => absurd h2 h, fun h => absurd h h1⟩
    · rw [if_neg h2]
      exact ⟨rfl, fun h => absurd h h2, fun _ _ => rfl, fun h => absurd h h1⟩

/-- Witness for C8 amended at the concrete modes RGBA and LA. -/
theorem load_image_convert_rule_witness :
    (load_image_convert "RGBA".toList).2 = ColorConversion.compositedOnWhite ∧
    (load_image_convert "LA".toList).2 = ColorConversion.directConvert :=
  ⟨(load_image_convert_rule ("RGBA".toList)).2.1 rfl,
   (load_image_convert_rule ("LA".toList)).2.2.1 (by decide) (by decide)⟩

/-! ## Model runtime holder (app/services/inference.py). The module globals
_model and _model_loaded are the state; the model object is a Nat handle;
the environment fixes the outcome of the file check, the download and the
keras load; the side effects performed by a call are recorded. -/

/-- Observable side effects of InferenceService.initialize_model. -/
inductive Effect where
  | checkFileExists
  | downloadModel
  | loadModelFile
deriving DecidableEq

/-- The module-level globals _model and _model_loaded. -/
structure ModelHolder where
  model : Option Nat
  model_loaded : Bool
deriving DecidableEq

/-- Outcomes of the external operations initialize_model performs. -/
structure ModelEnv where
  fileExists : Bool
  hasDownloadUrl : Bool
  downloadOk : Bool
  loadOk : Bool
  handle : Nat
deriving DecidableEq

/-- The try block of InferenceService.initialize_model (inference.py lines
57-91): on a successful keras load both globals are set; on an exception
both are cleared and None is returned. -/
def loadPart (env : ModelEnv) (effs : List Effect) :
    ModelHolder × Option Nat × List Effect :=
  if env.loadOk = true then
    (⟨some env.handle, true⟩, some env.handle, effs ++ [Effect.loadModelFile])
  else
    (⟨none, false⟩, none, effs ++ [Effect.loadModelFile])

/-- InferenceService.initialize_model (inference.py lines 27-91): return the
cached model immediately when loaded; otherwise check file presence,
download if missing (and a URL is configured), then load. -/
def init_model (env : ModelEnv) (s : ModelHolder) :
    ModelHolder × Option Nat × List Effect :=
  if s.model_loaded = true ∧ s.model.isSome = true then (s, s.model, [])
  else if env.fileExists = false then
    if env.hasDownloadUrl = true then
      if env.downloadOk = false then
        (s, none, [Effect.checkFileExists, Effect.downloadModel])
      else loadPart env [Effect.checkFileExists, Effect.downloadModel]
    else (s, none, [Effect.checkFileExists])
  else loadPart env [Effect.checkFileExists]

/-- InferenceService.load_model (inference.py lines 142-169): return the
cached model when loaded, otherwise fall back to initialization. -/
def load_model (env : ModelEnv) (s : ModelHolder) :
    ModelHolder × Option Nat × List Effect :=
  if s.model_loaded = true ∧ s.model.isSome = true then (s, s.model, [])
  else init_model env s

theorem init_model_success_state (env : ModelEnv) (s : ModelHolder)
    (h : (init_model env s).2.1.isSome = true) :
    (init_model env s).1.model_loaded = true ∧
    (init_model env s).1.model = (init_model env s).2.1 := by
  unfold init_model loadPart at h ⊢
  split_ifs at h ⊢ with h1 h2 h3 h4 h5
  · exact ⟨h1.1, rfl⟩
  · simp at h
  · exact ⟨rfl, rfl⟩
  · simp at h
  · simp at h
  · exact ⟨rfl, rfl⟩
  · simp at h

/-- Claim C5: after a successful initialization, a further call to
initialize_model or to load_model, under any environment, returns the same
handle, leaves the state unchanged and performs no file check, download or
load. -/
theorem model_init_idempotent (env env2 : ModelEnv) (s : ModelHolder)
    (h : (init_model env s).2.1.isSome = true) :
    init_model env2 (init_model env s).1 =
      ((init_model env s).1, (init_model env s).2.1, ([] : List Effect)) ∧
    load_model env2 (init_model env s).1 =
      ((init_model env s).1, (init_model env s).2.1, ([] : List Effect)) := by
  obtain ⟨hl, hm⟩ := init_model_success_state env s h
  have hcond : (init_model env s).1.model_loaded = true ∧
      (init_model env s).1.model.isSome = true := ⟨hl, by rw [hm]; exact h⟩
  constructor
  · rw [init_model, if_pos hcond, hm]
  · rw [load_model, if_pos hcond, hm]

/-- Witness for C5: a concrete successful first load (file present, load
succeeds, handle 7), then a second call under a different environment. -/
theorem model_init_idempotent_witness :
    init_model ⟨false, false, false, false, 0⟩
        (init_model ⟨true, false, false, true, 7⟩ ⟨none, false⟩).1 =
      ((init_model ⟨true, false, false, true, 7⟩ ⟨none, false⟩).1,
       (init_model ⟨true, false, false, true, 7⟩ ⟨none, false⟩).2.1,
       ([] : List Effect)) ∧
    load_model ⟨false, false, false, false, 0⟩
        (init_model ⟨true, false, false, true, 7⟩ ⟨none, false⟩).1 =
      ((init_model ⟨true, false, false, true, 7⟩ ⟨none, false⟩).1,
       (init_model ⟨true, false, false, true, 7⟩ ⟨none, false⟩).2.1,
       ([] : List Effect)) :=
  model_init_idempotent ⟨true, false, false, true, 7⟩ ⟨false, false, false, false, 0⟩
    ⟨none, false⟩ rfl

theorem checkFile_mem_init (env : ModelEnv) :
    Effect.checkFileExists ∈ (init_model env ⟨none, false⟩).2.2 := by
  unfold init_model loadPart
  split_ifs <;> simp_all

/-- Claim C7: when initialization fails (returns None), starting from a
consistent holder state, the globals are left unset (no handle, loaded flag
false), a subsequent call re-attempts the file check, and the holder is
never left with the loaded flag set but no handle. -/
theorem init_model_failure_unset (env env2 : ModelEnv) (s : ModelHolder)
    (hinv : s.model_loaded = true ↔ s.model.isSome = true) :
    ((init_model env s).2.1 = none →
      (init_model env s).1 = ⟨none, false⟩ ∧
      Effect.checkFileExists ∈ (init_model env2 ⟨none, false⟩).2.2) ∧
    ((init_model env s).1.model_loaded = true ↔
      (init_model env s).1.model.isSome = true) := by
  obtain ⟨mo, ld⟩ := s
  cases mo with
  | none =>
    cases ld with
    | false =>
      refine ⟨fun hfail => ⟨?_, checkFile_mem_init env2⟩, ?_⟩
      · unfold init_model loadPart at hfail ⊢
        split_ifs at hfail ⊢ with h1 h2 h3 h4 h5 <;> simp_all
      · unfold init_model loadPart
        split_ifs <;> simp_all
    | true => simp at hinv
  | some m =>
    cases ld with
    | true =>
      refine ⟨fun hfail => ?_, ?_⟩
      · rw [init_model, if_pos ⟨rfl, rfl⟩] at hfail
        simp at hfail
      · rw [init_model, if_pos ⟨rfl, rfl⟩]
        simp
    | false => simp at hinv

/-- Witness for C7: a concrete failed initialization (file missing, download
URL configured, download fails) from the unset state. -/
theorem init_model_failure_unset_witness :
    ((init_model ⟨false, true, false, true, 0⟩ ⟨none, false⟩).2.1 = none →
      (init_model ⟨false, true, false, true, 0⟩ ⟨none, false⟩).1 = ⟨none, false⟩ ∧
      Effect.checkFileExists ∈
        (init_model ⟨false, false, false, false, 0⟩ ⟨none, false⟩).2.2) ∧
    ((init_model ⟨false, true, false, true, 0⟩ ⟨none, false⟩).1.model_loaded = true ↔
      (init_model ⟨false, true, false, true, 0⟩ ⟨none, false⟩).1.model.isSome = true) :=
  init_model_failure_unset ⟨false, true, false, true, 0⟩ ⟨false, false, false, false, 0⟩
    ⟨none, false⟩ (by decide)

/-! ## Upload and prediction pipeline (app/views/dashboard.py, predict). The
request carries the upload filename and size together with the outcomes of
the external steps (image decode, model availability, image save); the
route returns the HTTP response, the persisted record, and whether the image
artifact was written. -/

/-- Inputs to the predict route, with environment outcomes for the
IO-dependent steps. -/
structure UploadRequest where
  hasFile : Bool
  filename : List Char
  fileSize : Nat
  imageLoadOk : Bool
  modelAvailable : Bool
  rawProb : ℚ
  saveOk : Bool

/-- The JSON response, reduced to status code and success flag. -/
structure HttpResponse where
  status : Nat
  success : Bool
deriving DecidableEq

/-- The Prediction database row written by the route (models/prediction.py
fields used in dashboard.py lines 122-128). -/
structure PredictionRecord where
  filename : List Char
  original_filename : List Char
  result_class : List Char
  confidence : ℚ
deriving DecidableEq

/-- Upload size limit of validate_file_size with max_size_mb 10
(image_processor.py lines 144-162, dashboard.py line 65). -/
def MAX_UPLOAD_BYTES : Nat := 10 * 1024 * 1024

/-- The predict route (dashboard.py lines 31-152): validation guards in
source order, then inference, filename construction, a save attempt whose
failure is caught and ignored, and the database write. Returns the response,
the persisted record, and whether the image artifact was written. -/
def predict_route (req : UploadRequest) (ts username : List Char) :
    HttpResponse × Option PredictionRecord × Bool :=
  if req.hasFile = false then (⟨400, false⟩, none, false)
  else if req.filename = [] then (⟨400, false⟩, none, false)
  else if is_allowed_file (sanitize_filename req.filename) = false then
    (⟨400, false⟩, none, false)
  else if MAX_UPLOAD_BYTES < req.fileSize then (⟨400, false⟩, none, false)
  else if req.imageLoadOk = false then (⟨400, false⟩, none, false)
  else if req.modelAvailable = false then (⟨500, false⟩, none, false)
  else
    (⟨200, true⟩,
     some ⟨new_filename (interpretPrediction req.rawProb).result_class ts username
             (sanitize_filename req.filename),
           sanitize_filename req.filename,
           (interpretPrediction req.rawProb).result_class,
           (interpretPrediction req.rawProb).confidence⟩,
     req.saveOk)

/-- Claim C6: when every step up to inference succeeds but writing the image
artifact fails, the route still returns HTTP 200 with success true, still
persists a PredictionRecord carrying the classification result, and only the
artifact write is lost. -/
theorem save_failure_nonfatal (req : UploadRequest) (ts username : List Char)
    (hf : req.hasFile = true) (hn : req.filename ≠ [])
    (ha : is_allowed_file (sanitize_filename req.filename) = true)
    (hs : req.fileSize ≤ MAX_UPLOAD_BYTES)
    (hl : req.imageLoadOk = true) (hm : req.modelAvailable = true)
    (hsave : req.saveOk = false) :
    (predict_route req ts username).1 = ⟨200, true⟩ ∧
    (predict_route req ts username).2.1 =
      some ⟨new_filename (interpretPrediction req.rawProb).result_class ts username
              (sanitize_filename req.filename),
            sanitize_filename req.filename,
            (interpretPrediction req.rawProb).result_class,
            (interpretPrediction req.rawProb).confidence⟩ ∧
    (predict_route req ts username).2.2 = false := by
  rw [predict_route, if_neg (by rw [hf]; decide), if_neg hn,
    if_neg (by rw [ha]; decide), if_neg (Nat.not_lt.mpr hs),
    if_neg (by rw [hl]; decide),
    if_neg (by rw [hm]; decide), hsave]
  exact ⟨rfl, rfl, rfl⟩

/-- Witness for C6: a concrete in-limit PNG upload by alice whose artifact
write fails. -/
theorem save_failure_nonfatal_witness :
    (predict_route ⟨true, "face.png".toList, 1000, true, true, 3/4, false⟩
        "20240101_000000".toList "alice".toList).1 = ⟨200, true⟩ ∧
    (predict_route ⟨true, "face.png".toList, 1000, true, true, 3/4, false⟩
        "20240101_000000".toList "alice".toList).2.1 =
      some ⟨new_filename (interpretPrediction (3/4)).result_class "20240101_000000".toList
              "alice".toList (sanitize_filename "face.png".toList),
            sanitize_filename "face.png".toList,
            (interpretPrediction (3/4)).result_class,
            (interpretPrediction (3/4)).confidence⟩ ∧
    (predict_route ⟨true, "face.png".toList, 1000, true, true, 3/4, false⟩
        "20240101_000000".toList "alice".toList).2.2 = false :=
  save_failure_nonfatal ⟨true, "face.png".toList, 1000, true, true, 3/4, false⟩
    "20240101_000000".toList "alice".toList rfl (by decide) rfl (by decide) rfl rfl rfl
